import Mathlib

/-!
Verification development for the claude-mcp task lifecycle engine.

The definitions below are a shallow embedding of the JavaScript source:

- src/services/TaskService.js (task registry, cancellation, cleanup sweep,
  parent-liveness watchdog and shutdown path);
- src/services/ClaudeService.js (process launcher: argument building, spawn
  options, blocking-mode response parsing with plain-text fallback, streaming
  line parsing with last-result-wins, close handlers, 30-minute timeout).

JavaScript Date values are modelled as natural numbers of milliseconds,
process handles as records carrying the child pid together with whether the
operating system accepts a process-group-wide signal for it, and the
observable side channel (MCP notifications, system notifications, signals
sent to child processes, process exit) as an explicit list of effects.
-/

/-- JSON values as produced by JSON.parse in the source. Numbers keep their
source lexeme (avoiding floating-point semantics, which no claim depends on);
object fields keep duplicate keys in order, and field lookup takes the last
binding, matching JSON.parse's last-property-wins behaviour. -/
inductive Json where
  | null
  | bool (b : Bool)
  | num (raw : String)
  | str (s : String)
  | arr (elems : List Json)
  | obj (fields : List (String × Json))

/-- JSON whitespace characters (space, tab, line feed, carriage return). -/
def isJsonWs (c : Char) : Bool :=
  c = ' ' || c = '\t' || c = '\n' || c = '\r'

/-- Drop leading JSON whitespace. -/
def skipWs (cs : List Char) : List Char :=
  cs.dropWhile isJsonWs

/-- Value of a hexadecimal digit, if the character is one. -/
def hexVal (c : Char) : Option Nat :=
  if '0' ≤ c ∧ c ≤ '9' then some (c.toNat - 48)
  else if 'a' ≤ c ∧ c ≤ 'f' then some (c.toNat - 87)
  else if 'A' ≤ c ∧ c ≤ 'F' then some (c.toNat - 55)
  else none

/-- Single-character JSON string escapes. -/
def escChar (c : Char) : Option Char :=
  if c = Char.ofNat 34 then some (Char.ofNat 34)
  else if c = '\\' then some '\\'
  else if c = '/' then some '/'
  else if c = 'b' then some (Char.ofNat 8)
  else if c = 'f' then some (Char.ofNat 12)
  else if c = 'n' then some '\n'
  else if c = 'r' then some '\r'
  else if c = 't' then some '\t'
  else none

/-- Parse the body of a JSON string literal (after the opening quote) up to
and including the closing quote, returning the decoded characters and the
remaining input. Unescaped control characters are rejected, as JSON.parse
rejects them. -/
def parseStringChars : List Char → Option (List Char × List Char)
  | [] => none
  | c :: cs =>
    if c = Char.ofNat 34 then some ([], cs)
    else if c = '\\' then
      match cs with
      | [] => none
      | e :: cs2 =>
        if e = 'u' then
          match cs2 with
          | h1 :: h2 :: h3 :: h4 :: cs3 =>
            match hexVal h1, hexVal h2, hexVal h3, hexVal h4 with
            | some a, some b, some c4, some d =>
              match parseStringChars cs3 with
              | some (s, rest) =>
                some (Char.ofNat (((a * 16 + b) * 16 + c4) * 16 + d) :: s, rest)
              | none => none
            | _, _, _, _ => none
          | _ => none
        else
          match escChar e with
          | some ec =>
            match parseStringChars cs2 with
            | some (s, rest) => some (ec :: s, rest)
            | none => none
          | none => none
    else if c.toNat < 32 then none
    else
      match parseStringChars cs with
      | some (s, rest) => some (c :: s, rest)
      | none => none

/-- Lex the integer part of a JSON number (no leading zeros except 0 itself). -/
def lexInt : List Char → Option (List Char × List Char)
  | [] => none
  | c :: cs =>
    if c = '0' then some ([c], cs)
    else if c.isDigit then
      some (c :: cs.takeWhile Char.isDigit, cs.dropWhile Char.isDigit)
    else none

/-- Lex the optional fractional part of a JSON number. -/
def lexFrac (cs : List Char) : Option (List Char × List Char) :=
  match cs with
  | c :: cs2 =>
    if c = '.' then
      let ds := cs2.takeWhile Char.isDigit
      if ds.isEmpty then none else some (c :: ds, cs2.dropWhile Char.isDigit)
    else some ([], cs)
  | [] => some ([], [])

/-- Lex the optional exponent part of a JSON number. -/
def lexExp (cs : List Char) : Option (List Char × List Char) :=
  match cs with
  | c :: cs2 =>
    if c = 'e' ∨ c = 'E' then
      let sgnrest : List Char × List Char :=
        match cs2 with
        | s :: cs3 => if s = '+' ∨ s = '-' then ([s], cs3) else ([], cs2)
        | [] => ([], [])
      let ds := sgnrest.2.takeWhile Char.isDigit
      if ds.isEmpty then none
      else some (c :: sgnrest.1 ++ ds, sgnrest.2.dropWhile Char.isDigit)
    else some ([], cs)
  | [] => some ([], [])

/-- Lex a complete JSON number, keeping its lexeme. -/
def parseNumber (cs : List Char) : Option (Json × List Char) :=
  let sgncs : List Char × List Char :=
    match cs with
    | c :: cs1 => if c = '-' then ([c], cs1) else ([], cs)
    | [] => ([], [])
  match lexInt sgncs.2 with
  | none => none
  | some (ip, cs2) =>
    match lexFrac cs2 with
    | none => none
    | some (fp, cs3) =>
      match lexExp cs3 with
      | none => none
      | some (ep, cs4) => some (.num (String.mk (sgncs.1 ++ ip ++ fp ++ ep)), cs4)

mutual

/-- Parse one JSON value, fuel-bounded. Embeds the grammar accepted by
JSON.parse; braces and brackets are written via their character codes. -/
def parseValue : Nat → List Char → Option (Json × List Char)
  | 0, _ => none
  | Nat.succ fuel, cs =>
    match skipWs cs with
    | [] => none
    | c :: cs2 =>
      if c = Char.ofNat 123 then
        match skipWs cs2 with
        | c2 :: rest => if c2 = Char.ofNat 125 then some (.obj [], rest)
                        else parseObjTail fuel cs2 []
        | [] => none
      else if c = Char.ofNat 91 then
        match skipWs cs2 with
        | c2 :: rest => if c2 = Char.ofNat 93 then some (.arr [], rest)
                        else parseArrTail fuel cs2 []
        | [] => none
      else if c = Char.ofNat 34 then
        match parseStringChars cs2 with
        | some (s, rest) => some (.str (String.mk s), rest)
        | none => none
      else if c = 'n' then
        (match cs2 with
         | 'u' :: 'l' :: 'l' :: rest => some (.null, rest)
         | _ => none)
      else if c = 't' then
        (match cs2 with
         | 'r' :: 'u' :: 'e' :: rest => some (.bool true, rest)
         | _ => none)
      else if c = 'f' then
        (match cs2 with
         | 'a' :: 'l' :: 's' :: 'e' :: rest => some (.bool false, rest)
         | _ => none)
      else parseNumber (c :: cs2)

/-- Parse the elements of a non-empty JSON array (after the opening bracket). -/
def parseArrTail : Nat → List Char → List Json → Option (Json × List Char)
  | 0, _, _ => none
  | Nat.succ fuel, cs, acc =>
    match parseValue fuel cs with
    | none => none
    | some (v, rest) =>
      match skipWs rest with
      | c :: rest2 =>
        if c = ',' then parseArrTail fuel rest2 (acc ++ [v])
        else if c = Char.ofNat 93 then some (.arr (acc ++ [v]), rest2)
        else none
      | [] => none

/-- Parse the members of a non-empty JSON object (after the opening brace). -/
def parseObjTail : Nat → List Char → List (String × Json) → Option (Json × List Char)
  | 0, _, _ => none
  | Nat.succ fuel, cs, acc =>
    match skipWs cs with
    | c :: cs2 =>
      if c = Char.ofNat 34 then
        (match parseStringChars cs2 with
         | some (k, rest) =>
          match skipWs rest with
          | c2 :: rest2 =>
            if c2 = ':' then
              (match parseValue fuel rest2 with
               | some (v, rest3) =>
                 match skipWs rest3 with
                 | c3 :: rest4 =>
                   if c3 = ',' then parseObjTail fuel rest4 (acc ++ [(String.mk k, v)])
                   else if c3 = Char.ofNat 125 then
                     some (.obj (acc ++ [(String.mk k, v)]), rest4)
                   else none
                 | [] => none
               | none => none)
            else none
          | [] => none
         | none => none)
      else none
    | [] => none

end

/-- Embedding of JSON.parse: parse a whole string as one JSON value, requiring
the entire input (up to trailing whitespace) to be consumed. Returns none
where JSON.parse throws. -/
def jsonParse (s : String) : Option Json :=
  match parseValue (2 * s.length + 4) s.data with
  | some (v, rest) => if (skipWs rest).isEmpty then some v else none
  | none => none

/-- Field lookup on a parsed JSON value, as JavaScript property access on the
result of JSON.parse: only objects have fields, and with duplicate keys the
last binding wins. -/
def Json.getField : Json → String → Option Json
  | .obj fields, k => ((fields.filter (fun p => p.1 == k)).getLast?).map Prod.snd
  | _, _ => none

/-- Characters matched by the token group of the stderr pattern
/Response ID: ([a-f0-9-]+)/ in ClaudeService.parseResponse. -/
def isTokenChar (c : Char) : Bool :=
  ('a' ≤ c && c ≤ 'f') || ('0' ≤ c && c ≤ '9') || c = '-'

/-- Try to match the pattern Response ID: token at the head of the input. -/
def responseIdAt (cs : List Char) : Option String :=
  if cs.take 13 = "Response ID: ".data then
    let tok := (cs.drop 13).takeWhile isTokenChar
    if tok.isEmpty then none else some (String.mk tok)
  else none

/-- Scan for the first position where the pattern matches, as a JavaScript
regular-expression search does. -/
def responseIdScan : List Char → Option String
  | [] => none
  | c :: rest =>
    match responseIdAt (c :: rest) with
    | some t => some t
    | none => responseIdScan rest

/-- Embedding of the stderr match stderr.match(/Response ID: ([a-f0-9-]+)/) in
ClaudeService.parseResponse: the captured token of the first match, if any. -/
def extractResponseId (stderr : String) : Option String :=
  responseIdScan stderr.data

namespace ClaudeMcp

/-- Task states used by TaskService (field name status in the source). -/
inductive TaskStatus where
  | pending
  | running
  | completed
  | failed
  | cancelled
deriving DecidableEq, Repr

/-- Terminal states, exactly the three statuses tested by the relocation
condition in TaskService.updateTask. -/
def TaskStatus.isTerminal : TaskStatus → Bool
  | .completed => true
  | .failed => true
  | .cancelled => true
  | _ => false

/-- A child-process handle as stored in task.process: the pid, together with
whether the operating system accepts a process-group-wide signal for it
(process.kill(-pid) succeeds) — the environment fact that decides which branch
of the try/catch in TaskService.cancelTask runs. -/
structure Proc where
  pid : Nat
  groupKillOk : Bool
deriving DecidableEq, Repr

/-- A task record, as built by TaskService.createTask. Date values are
milliseconds. -/
structure Task where
  id : String
  message : String
  previousResponseId : Option String
  workingDirectory : Option String
  status : TaskStatus
  result : Option Json
  error : Option String
  createdAt : Nat
  updatedAt : Nat
  process : Option Proc

/-- A partial update record as passed to TaskService.updateTask: an outer
none means the property is absent from the updates object, an outer some
gives the assigned value (which may itself be null). -/
structure TaskUpdates where
  status : Option TaskStatus := none
  result : Option (Option Json) := none
  error : Option (Option String) := none
  process : Option (Option Proc) := none

/-- Observable side effects of the registry: MCP notifications (method, task
id, optional reason tag), macOS system notifications, and signals sent to a
child process group or a single child process. -/
inductive Effect where
  | mcpNotification (method : String) (taskId : String) (reason : Option String)
  | systemNotification (taskId : String) (status : TaskStatus)
  | groupSignal (pgid : Nat)
  | singleSignal (pid : Nat)
deriving DecidableEq, Repr

/-- Lookup in a JavaScript Map modelled as an association list. -/
def mapGet : List (String × Task) → String → Option Task
  | [], _ => none
  | p :: rest, k => if p.1 == k then some p.2 else mapGet rest k

/-- Map.set: replace the binding in place if the key is present, else append. -/
def mapSet : List (String × Task) → String → Task → List (String × Task)
  | [], k, v => [(k, v)]
  | p :: rest, k, v => if p.1 == k then (k, v) :: rest else p :: mapSet rest k v

/-- Map.delete: drop the binding for the key. -/
def mapDel : List (String × Task) → String → List (String × Task)
  | [], _ => []
  | p :: rest, k => if p.1 == k then rest else p :: mapDel rest k

/-- The TaskService state: the two task maps and the two interval timers
started by the constructor. -/
structure TaskService where
  activeTasks : List (String × Task)
  completedTasks : List (String × Task)
  cleanupTimer : Bool
  parentCheckTimer : Bool

/-- The freshly constructed service: empty maps, both timers running. -/
def TaskService.mk0 : TaskService :=
  { activeTasks := [], completedTasks := [], cleanupTimer := true, parentCheckTimer := true }

/-- Interval of the cleanup sweep (5 minutes, from the constructor). -/
def CLEANUP_INTERVAL_MS : Nat := 300000

/-- Interval of the parent-liveness check (1 second, from the constructor). -/
def PARENT_CHECK_INTERVAL_MS : Nat := 1000

/-- Retention window for terminal tasks (1 hour, from cleanup). -/
def RETENTION_MS : Nat := 3600000

/-- Ceiling on a blocking execution (30 minutes, from executeSync). -/
def SYNC_TIMEOUT_MS : Nat := 1800000

/-- TaskService.createTask: insert a fresh pending record and emit the
creation notification. The random UUID is passed in as taskId. -/
def createTask (s : TaskService) (taskId message : String)
    (previousResponseId workingDirectory : Option String) (now : Nat) :
    TaskService × List Effect :=
  let task : Task :=
    { id := taskId, message := message, previousResponseId := previousResponseId,
      workingDirectory := workingDirectory, status := .pending, result := none,
      error := none, createdAt := now, updatedAt := now, process := none }
  ({ s with activeTasks := mapSet s.activeTasks taskId task },
   [.mcpNotification "task/created" taskId none])

/-- TaskService.getTask: lookup across the active map first, then the
completed map. -/
def getTask (s : TaskService) (taskId : String) : Option Task :=
  (mapGet s.activeTasks taskId).orElse (fun _ => mapGet s.completedTasks taskId)

/-- Object.assign(task, updates, with updatedAt set to the current time). -/
def assignUpdates (t : Task) (u : TaskUpdates) (now : Nat) : Task :=
  { t with
    status := u.status.getD t.status,
    result := u.result.getD t.result,
    error := u.error.getD t.error,
    process := u.process.getD t.process,
    updatedAt := now }

/-- The relocation condition of updateTask: updates.status is completed,
failed, or cancelled. -/
def updatesTerminal (u : TaskUpdates) : Bool :=
  match u.status with
  | some st => st.isTerminal
  | none => false

/-- TaskService.updateTask: merge fields into the task found in the active
map (no-op when absent), refresh updatedAt, emit the update notification,
and when the update carries a terminal status move the record to the
completed map and emit the completion notifications. -/
def updateTask (s : TaskService) (taskId : String) (u : TaskUpdates) (now : Nat) :
    TaskService × List Effect :=
  match mapGet s.activeTasks taskId with
  | none => (s, [])
  | some task =>
    let merged := assignUpdates task u now
    if updatesTerminal u then
      ({ s with activeTasks := mapDel s.activeTasks taskId,
                completedTasks := mapSet s.completedTasks taskId merged },
       [.mcpNotification "task/updated" taskId none,
        .systemNotification taskId merged.status,
        .mcpNotification "task/completed" taskId none])
    else
      ({ s with activeTasks := mapSet s.activeTasks taskId merged },
       [.mcpNotification "task/updated" taskId none])

/-- State component of updateTask. -/
def updateTaskSt (s : TaskService) (taskId : String) (u : TaskUpdates) (now : Nat) :
    TaskService :=
  (updateTask s taskId u now).1

/-- The try/catch around process.kill(-pid) in cancelTask and in the parent
exit shutdown: the group-wide signal when the OS accepts it, otherwise the
single-process fallback kill. -/
def killWithFallback (p : Proc) : List Effect :=
  if p.groupKillOk then [.groupSignal p.pid] else [.singleSignal p.pid]

/-- TaskService.cancelTask: true only when the task is in the active map and
holds a process handle; kills the process group (with single-process
fallback), marks the task cancelled via updateTask, and emits the
cancellation notification. Otherwise false with no state change. -/
def cancelTask (s : TaskService) (taskId : String) (now : Nat) :
    TaskService × List Effect × Bool :=
  match mapGet s.activeTasks taskId with
  | some task =>
    match task.process with
    | some p =>
      let upd := updateTask s taskId { status := some .cancelled } now
      (upd.1,
       killWithFallback p ++ upd.2 ++ [.mcpNotification "task/cancelled" taskId none],
       true)
    | none => (s, [], false)
  | none => (s, [], false)

/-- Snapshot counts, as TaskService.getStats. -/
structure Stats where
  active : Nat
  completed : Nat
  total : Nat
deriving DecidableEq, Repr

/-- TaskService.getStats. -/
def getStats (s : TaskService) : Stats :=
  { active := s.activeTasks.length,
    completed := s.completedTasks.length,
    total := s.activeTasks.length + s.completedTasks.length }

/-- TaskService.cleanup: delete every completed-map entry whose updatedAt is
before the cutoff one hour ago; the active map is untouched. -/
def cleanup (s : TaskService) (now : Nat) : TaskService :=
  let cutoff := now - RETENTION_MS
  { s with completedTasks :=
      s.completedTasks.filter (fun p => !(decide (p.2.updatedAt < cutoff))) }

/-- TaskService.destroy: stop both interval timers, then cancel every task
still in the active map. -/
def destroy (s : TaskService) (now : Nat) : TaskService × List Effect :=
  let s0 : TaskService := { s with cleanupTimer := false, parentCheckTimer := false }
  let ids := s0.activeTasks.map Prod.fst
  ids.foldl
    (fun acc taskId =>
      let r := cancelTask acc.1 taskId now
      (r.1, acc.2 ++ r.2.1))
    (s0, [])

/-- One iteration of the loop in shutdownDueToParentExit: notify with the
parent-exit reason tag, kill the process group with fallback when the task
holds a handle, then mark the task cancelled. -/
def shutdownStep (now : Nat) (acc : TaskService × List Effect) (taskId : String) :
    TaskService × List Effect :=
  let killEffs : List Effect :=
    match mapGet acc.1.activeTasks taskId with
    | some task =>
      match task.process with
      | some p => killWithFallback p
      | none => []
    | none => []
  let upd := updateTask acc.1 taskId { status := some .cancelled } now
  (upd.1,
   acc.2 ++ [.mcpNotification "task/cancelled" taskId (some "parent_process_exit")]
         ++ killEffs ++ upd.2)

/-- TaskService.shutdownDueToParentExit: process the snapshot of active task
ids, then destroy the service and exit the host process with code 0. -/
def shutdownDueToParentExit (s : TaskService) (now : Nat) :
    TaskService × List Effect × Option Nat :=
  let ids := s.activeTasks.map Prod.fst
  let looped := ids.foldl (shutdownStep now) (s, [])
  let fin := destroy looped.1 now
  (fin.1, looped.2 ++ fin.2, some 0)

/-- TaskService.checkParentProcess: shut down when process.ppid is at most 1
(reparented to init) or when the zero-effect probe process.kill(ppid, 0)
fails; otherwise do nothing. -/
def checkParentProcess (s : TaskService) (ppid : Int) (parentAlive : Bool) (now : Nat) :
    TaskService × List Effect × Option Nat :=
  if ppid ≤ 1 then shutdownDueToParentExit s now
  else if parentAlive then (s, [], none)
  else shutdownDueToParentExit s now

end ClaudeMcp

namespace ClaudeMcp

/-- Whitespace removed by the JavaScript string trim method (space, tab,
line feed, carriage return, vertical tab, form feed). -/
def isJsWs (c : Char) : Bool :=
  c = ' ' || c = '\t' || c = '\n' || c = '\r' || c = Char.ofNat 11 || c = Char.ofNat 12

/-- Drop leading and trailing JavaScript whitespace from a character list. -/
def trimChars (cs : List Char) : List Char :=
  ((cs.dropWhile isJsWs).reverse.dropWhile isJsWs).reverse

/-- Embedding of the JavaScript trim method. -/
def jsTrim (s : String) : String := String.mk (trimChars s.data)

/-- Split a character list at every occurrence of the separator, as the
JavaScript split method with a one-character separator does (an empty input
gives one empty part, a trailing separator a trailing empty part). -/
def splitOnChar (sep : Char) : List Char → List (List Char)
  | [] => [[]]
  | c :: rest =>
    let r := splitOnChar sep rest
    if c = sep then [] :: r
    else
      match r with
      | h :: t => (c :: h) :: t
      | [] => [[c]]

/-- Embedding of the JavaScript split with the newline separator. -/
def jsSplitNl (s : String) : List String :=
  (splitOnChar (Char.ofNat 10) s.data).map String.mk

/-- Options object passed to child_process.spawn. The source passes stdio
["ignore", "pipe", "pipe"] and shell false and no detached key; Node defaults
detached to false when the key is absent. -/
structure SpawnOptions where
  stdinMode : String
  stdoutMode : String
  stderrMode : String
  shell : Bool
  detached : Bool
deriving DecidableEq, Repr

/-- Spawn options of the blocking path ClaudeService.executeSync. -/
def executeSyncSpawnOptions : SpawnOptions :=
  { stdinMode := "ignore", stdoutMode := "pipe", stderrMode := "pipe",
    shell := false, detached := false }

/-- Spawn options of the streaming path ClaudeService.executeAsync. -/
def executeAsyncSpawnOptions : SpawnOptions :=
  { stdinMode := "ignore", stdoutMode := "pipe", stderrMode := "pipe",
    shell := false, detached := false }

/-- ClaudeService.buildArgs: the argument vector for a request. -/
def buildArgs (prompt : String) (previousResponseId : Option String) (isAsync : Bool) :
    List String :=
  ["-p", prompt]
    ++ (if isAsync then ["--output-format", "stream-json", "--verbose"]
        else ["--output-format", "json"])
    ++ (match previousResponseId with
        | some r => ["--resume", r]
        | none => [])
    ++ ["--dangerously-skip-permissions"]

/-- The plain-text fallback record built by ClaudeService.parseResponse when
stdout does not parse as JSON: trimmed stdout as the answer, the session id
recovered from stderr when the Response ID pattern matches (null otherwise),
and zero cost and duration. -/
def fallbackResult (stdout stderr : String) : Json :=
  .obj [("type", .str "result"),
        ("subtype", .str "success"),
        ("session_id",
          match extractResponseId stderr with
          | some r => .str r
          | none => .null),
        ("result", .str (jsTrim stdout)),
        ("is_error", .bool false),
        ("cost_usd", .num "0"),
        ("duration_ms", .num "0")]

/-- ClaudeService.parseResponse: JSON.parse of stdout when it succeeds,
otherwise the plain-text fallback. -/
def parseResponse (stdout stderr : String) : Json :=
  match jsonParse stdout with
  | some v => v
  | none => fallbackResult stdout stderr

/-- The event that settles a blocking executeSync call: the close handler
with the exit code, the spawn-error handler, or the 30-minute timeout firing
because neither handler ran within the window. -/
inductive SyncEvent where
  | close (code : Int)
  | spawnError (msg : String)
  | timeoutFired
deriving DecidableEq, Repr

/-- Resolution of the executeSync promise given the settling event and the
accumulated stdout and stderr: exit 0 resolves with parseResponse (which
never throws), a non-zero exit, a spawn error and the timeout reject with
the corresponding messages. -/
def executeSyncOutcome (ev : SyncEvent) (stdout stderr : String) : Except String Json :=
  match ev with
  | .close code =>
    if code = 0 then .ok (parseResponse stdout stderr)
    else .error ("Agent failed with exit code " ++ toString code ++ ": " ++ stderr)
  | .spawnError msg => .error ("Failed to spawn agent process: " ++ msg)
  | .timeoutFired => .error "Agent execution timed out after 30 minutes"

/-- Signals sent to the child by the blocking path: none, in every branch.
In particular the timeout callback in executeSync only logs and rejects the
promise; it never signals the spawned process. -/
def executeSyncSignals (ev : SyncEvent) : List Effect :=
  match ev with
  | _ => []

/-- The test message.type === "result" in the streaming stdout handler. -/
def isResultType (m : Json) : Bool :=
  match m.getField "type" with
  | some (.str s) => s == "result"
  | _ => false

/-- One line of the streaming stdout handler: a line that parses as JSON of
type "result" becomes the new lastResult; parse failures and other events
leave lastResult unchanged. -/
def streamStep (lastResult : Option Json) (line : String) : Option Json :=
  match jsonParse line with
  | some m => if isResultType m then some m else lastResult
  | none => lastResult

/-- chunk.split with the newline separator, filtered by line.trim()
truthiness, as in the streaming stdout handler. -/
def chunkLines (chunk : String) : List String :=
  (jsSplitNl chunk).filter (fun l => !(trimChars l.data).isEmpty)

/-- Processing of one stdout data chunk by the streaming handler. -/
def processChunk (lastResult : Option Json) (chunk : String) : Option Json :=
  (chunkLines chunk).foldl streamStep lastResult

/-- The lastResult value after the whole sequence of stdout data chunks. -/
def processStream (chunks : List String) : Option Json :=
  chunks.foldl processChunk none

/-- The update record passed to updateTask by the close handler of
ClaudeService.executeAsync: on exit 0, the streamed lastResult when one was
captured, otherwise parseResponse of the last non-empty stdout line (failing
only when there is no such line); on non-zero exit, a failure record. The
process property is set to null in every branch. -/
def asyncCloseUpdates (code : Int) (stdout stderr : String) (lastResult : Option Json) :
    TaskUpdates :=
  if code = 0 then
    match lastResult with
    | some r => { status := some .completed, result := some (some r), process := some none }
    | none =>
      match ((jsSplitNl (jsTrim stdout)).filter (fun l => !(trimChars l.data).isEmpty)).getLast? with
      | none =>
        { status := some .failed,
          error := some (some ("Failed to parse agent response: No valid output lines found\nOutput: " ++ stdout)),
          process := some none }
      | some lastLine =>
        { status := some .completed,
          result := some (some (parseResponse lastLine stderr)),
          process := some none }
  else
    { status := some .failed,
      error := some (some ("Agent failed with exit code " ++ toString code ++ ": " ++ stderr)),
      process := some none }

end ClaudeMcp


namespace ClaudeMcp

/-- The keys of a task map are pairwise distinct (a JavaScript Map cannot
hold two bindings for one key). -/
def KeysNodup (m : List (String × Task)) : Prop :=
  m.Pairwise (fun p q => p.1 ≠ q.1)

theorem mapGet_eq_none_iff (m : List (String × Task)) (k : String) :
    mapGet m k = none ↔ ∀ t : Task, (k, t) ∉ m := by
  induction m with
  | nil => simp [mapGet]
  | cons p rest ih =>
    by_cases h : p.1 = k
    · constructor
      · intro hg
        simp [mapGet, h] at hg
      · intro hall
        exfalso
        apply hall p.2
        have : p = (k, p.2) := by
          cases p
          simp_all
        rw [← this]
        exact List.mem_cons_self _ _
    · rw [show mapGet (p :: rest) k = mapGet rest k by simp [mapGet, h]]
      rw [ih]
      constructor
      · intro hall t hmem
        rcases List.mem_cons.mp hmem with hc | hc
        · apply h
          rw [← hc]
        · exact hall t hc
      · intro hall t hmem
        exact hall t (List.mem_cons_of_mem _ hmem)

theorem mapGet_eq_some_mem (m : List (String × Task)) (k : String) (t : Task)
    (h : mapGet m k = some t) : (k, t) ∈ m := by
  induction m with
  | nil => simp [mapGet] at h
  | cons p rest ih =>
    by_cases hp : p.1 = k
    · simp [mapGet, hp] at h
      have : p = (k, t) := by
        cases p
        simp_all
      rw [← this]
      exact List.mem_cons_self _ _
    · simp [mapGet, hp] at h
      exact List.mem_cons_of_mem _ (ih h)

theorem mapGet_set_self (m : List (String × Task)) (k : String) (v : Task) :
    mapGet (mapSet m k v) k = some v := by
  induction m with
  | nil => simp [mapSet, mapGet]
  | cons p rest ih =>
    by_cases h : p.1 = k
    · simp [mapSet, mapGet, h]
    · simp [mapSet, mapGet, h, ih]

theorem mapGet_set_ne (m : List (String × Task)) (k k' : String) (v : Task)
    (h : k' ≠ k) : mapGet (mapSet m k v) k' = mapGet m k' := by
  have hk : k ≠ k' := Ne.symm h
  induction m with
  | nil => simp [mapSet, mapGet, hk]
  | cons p rest ih =>
    by_cases hp : p.1 = k
    · simp [mapSet, mapGet, hp, hk]
    · simp only [mapSet, hp]
      by_cases hq : p.1 = k'
      · simp [mapGet, hp, hq, h]
      · simp [mapGet, hp, hq, ih]

theorem mapGet_del_ne (m : List (String × Task)) (k k' : String)
    (h : k' ≠ k) : mapGet (mapDel m k) k' = mapGet m k' := by
  have hk : k ≠ k' := Ne.symm h
  induction m with
  | nil => simp [mapDel]
  | cons p rest ih =>
    by_cases hp : p.1 = k
    · have hq : ¬(p.1 = k') := by
        rw [hp]
        exact hk
      simp [mapDel, mapGet, hp, hq, hk]
    · by_cases hq : p.1 = k'
      · simp [mapDel, mapGet, hp, hq, h]
      · simp [mapDel, mapGet, hp, hq, ih]

theorem mem_del_subset (m : List (String × Task)) (k : String) (q : String × Task)
    (hq : q ∈ mapDel m k) : q ∈ m := by
  induction m with
  | nil => simp [mapDel] at hq
  | cons p rest ih =>
    by_cases hp : p.1 = k
    · simp [mapDel, hp] at hq
      exact List.mem_cons_of_mem _ hq
    · simp [mapDel, hp] at hq
      rcases hq with hc | hc
      · rw [hc]
        exact List.mem_cons_self _ _
      · exact List.mem_cons_of_mem _ (ih hc)

theorem mem_set_cases (m : List (String × Task)) (k : String) (v : Task)
    (q : String × Task) (hq : q ∈ mapSet m k v) : q = (k, v) ∨ q ∈ m := by
  induction m with
  | nil =>
    simp [mapSet] at hq
    exact Or.inl hq
  | cons p rest ih =>
    by_cases hp : p.1 = k
    · simp [mapSet, hp] at hq
      rcases hq with hc | hc
      · exact Or.inl hc
      · exact Or.inr (List.mem_cons_of_mem _ hc)
    · simp [mapSet, hp] at hq
      rcases hq with hc | hc
      · right
        rw [hc]
        exact List.mem_cons_self _ _
      · rcases ih hc with hd | hd
        · exact Or.inl hd
        · exact Or.inr (List.mem_cons_of_mem _ hd)

theorem mapGet_del_self (m : List (String × Task)) (k : String)
    (h : KeysNodup m) : mapGet (mapDel m k) k = none := by
  induction m with
  | nil => simp [mapDel, mapGet]
  | cons p rest ih =>
    rcases List.pairwise_cons.mp h with ⟨hhead, htail⟩
    by_cases hp : p.1 = k
    · simp [mapDel, hp]
      rw [mapGet_eq_none_iff]
      intro t hmem
      exact hhead (k, t) hmem (by simp [hp])
    · simp [mapDel, mapGet, hp]
      exact ih htail

theorem keysNodup_set (m : List (String × Task)) (k : String) (v : Task)
    (h : KeysNodup m) : KeysNodup (mapSet m k v) := by
  induction m with
  | nil => simp [mapSet, KeysNodup]
  | cons p rest ih =>
    rcases List.pairwise_cons.mp h with ⟨hhead, htail⟩
    by_cases hp : p.1 = k
    · rw [show mapSet (p :: rest) k v = (k, v) :: rest by simp [mapSet, hp]]
      apply List.pairwise_cons.mpr
      refine ⟨?_, htail⟩
      intro q hq
      have := hhead q hq
      rw [← hp]
      exact this
    · rw [show mapSet (p :: rest) k v = p :: mapSet rest k v by simp [mapSet, hp]]
      apply List.pairwise_cons.mpr
      refine ⟨?_, ih htail⟩
      intro q hq
      rcases mem_set_cases rest k v q hq with hc | hc
      · rw [hc]
        exact hp
      · exact hhead q hc

theorem keysNodup_del (m : List (String × Task)) (k : String)
    (h : KeysNodup m) : KeysNodup (mapDel m k) := by
  induction m with
  | nil => simp [mapDel, KeysNodup]
  | cons p rest ih =>
    rcases List.pairwise_cons.mp h with ⟨hhead, htail⟩
    by_cases hp : p.1 = k
    · rw [show mapDel (p :: rest) k = rest by simp [mapDel, hp]]
      exact htail
    · rw [show mapDel (p :: rest) k = p :: mapDel rest k by simp [mapDel, hp]]
      apply List.pairwise_cons.mpr
      refine ⟨?_, ih htail⟩
      intro q hq
      exact hhead q (mem_del_subset rest k q hq)

theorem mapGet_filter_none (m : List (String × Task)) (k : String)
    (f : String × Task → Bool) (h : mapGet m k = none) :
    mapGet (m.filter f) k = none := by
  induction m with
  | nil => simp [mapGet]
  | cons p rest ih =>
    by_cases hp : p.1 = k
    · simp [mapGet, hp] at h
    · simp [mapGet, hp] at h
      by_cases hf : f p
      · rw [show (p :: rest).filter f = p :: rest.filter f by simp [hf]]
        simp [mapGet, hp]
        exact ih h
      · rw [show (p :: rest).filter f = rest.filter f by simp [hf]]
        exact ih h

theorem keysNodup_filter (m : List (String × Task)) (f : String × Task → Bool)
    (h : KeysNodup m) : KeysNodup (m.filter f) := by
  exact List.Pairwise.sublist (List.filter_sublist m) h

end ClaudeMcp

namespace ClaudeMcp

/-- The registry invariant: every task in the active map is non-terminal,
both maps have pairwise-distinct keys, and no task id is present in both
maps at once. -/
def Inv (s : TaskService) : Prop :=
  (∀ p ∈ s.activeTasks, p.2.status.isTerminal = false) ∧
  KeysNodup s.activeTasks ∧
  KeysNodup s.completedTasks ∧
  (∀ k, mapGet s.activeTasks k = none ∨ mapGet s.completedTasks k = none)

theorem inv_createTask (s : TaskService) (taskId message : String)
    (prev wd : Option String) (now : Nat) (h : Inv s)
    (hfresh : mapGet s.completedTasks taskId = none) :
    Inv (createTask s taskId message prev wd now).1 := by
  obtain ⟨hact, hka, hkc, hdisj⟩ := h
  refine ⟨?_, ?_, ?_, ?_⟩
  · intro p hp
    rcases mem_set_cases _ _ _ _ (by simpa [createTask] using hp) with hc | hc
    · rw [hc]
      rfl
    · exact hact p hc
  · exact keysNodup_set _ _ _ hka
  · exact hkc
  · intro k
    by_cases hk : k = taskId
    · right
      rw [hk]
      simpa [createTask] using hfresh
    · simp only [createTask]
      rw [mapGet_set_ne _ _ _ _ hk]
      exact hdisj k

theorem inv_updateTask (s : TaskService) (taskId : String) (u : TaskUpdates)
    (now : Nat) (h : Inv s) : Inv (updateTask s taskId u now).1 := by
  obtain ⟨hact, hka, hkc, hdisj⟩ := h
  cases hg : mapGet s.activeTasks taskId with
  | none => simpa [updateTask, hg] using ⟨hact, hka, hkc, hdisj⟩
  | some task =>
    by_cases ht : updatesTerminal u
    · simp only [updateTask, hg, ht, if_pos]
      refine ⟨?_, ?_, ?_, ?_⟩
      · intro p hp
        exact hact p (mem_del_subset _ _ _ hp)
      · exact keysNodup_del _ _ hka
      · exact keysNodup_set _ _ _ hkc
      · intro k
        by_cases hk : k = taskId
        · left
          rw [hk]
          exact mapGet_del_self _ _ hka
        · rw [mapGet_del_ne _ _ _ hk, mapGet_set_ne _ _ _ _ hk]
          exact hdisj k
    · simp only [updateTask, hg, ht, if_neg, Bool.false_eq_true, not_false_iff]
      refine ⟨?_, ?_, ?_, ?_⟩
      · intro p hp
        rcases mem_set_cases _ _ _ _ hp with hc | hc
        · rw [hc]
          show (assignUpdates task u now).status.isTerminal = false
          cases hu : u.status with
          | some st =>
            have : st.isTerminal = false := by
              simpa [updatesTerminal, hu] using ht
            simpa [assignUpdates, hu] using this
          | none =>
            have := hact (taskId, task) (mapGet_eq_some_mem _ _ _ hg)
            simpa [assignUpdates, hu] using this
        · exact hact p hc
      · exact keysNodup_set _ _ _ hka
      · exact hkc
      · intro k
        by_cases hk : k = taskId
        · right
          rcases hdisj k with hd | hd
        
          · rw [hk] at hd
            rw [hd] at hg
            exact absurd hg (by simp)
          · exact hd
        · rw [mapGet_set_ne _ _ _ _ hk]
          exact hdisj k

theorem inv_cancelTask (s : TaskService) (taskId : String) (now : Nat)
    (h : Inv s) : Inv (cancelTask s taskId now).1 := by
  cases hg : mapGet s.activeTasks taskId with
  | none => simpa [cancelTask, hg] using h
  | some task =>
    cases hp : task.process with
    | none => simpa [cancelTask, hg, hp] using h
    | some p =>
      have := inv_updateTask s taskId { status := some .cancelled } now h
      simpa [cancelTask, hg, hp, updateTaskSt] using this

theorem inv_cleanup (s : TaskService) (now : Nat) (h : Inv s) :
    Inv (cleanup s now) := by
  obtain ⟨hact, hka, hkc, hdisj⟩ := h
  refine ⟨hact, hka, keysNodup_filter _ _ hkc, ?_⟩
  intro k
  rcases hdisj k with hd | hd
  · exact Or.inl hd
  · exact Or.inr (mapGet_filter_none _ _ _ hd)

theorem inv_cancel_foldl (now : Nat) (ids : List String) :
    ∀ (st : TaskService) (effs : List Effect), Inv st →
    Inv ((ids.foldl
      (fun acc taskId =>
        let r := cancelTask acc.1 taskId now
        (r.1, acc.2 ++ r.2.1))
      (st, effs)).1) := by
  induction ids with
  | nil => intro st effs h; exact h
  | cons tid rest ih =>
    intro st effs h
    exact ih _ _ (inv_cancelTask st tid now h)

theorem inv_destroy (s : TaskService) (now : Nat) (h : Inv s) :
    Inv (destroy s now).1 := by
  have h0 : Inv { s with cleanupTimer := false, parentCheckTimer := false } := h
  exact inv_cancel_foldl now _ _ _ h0

theorem inv_shutdownStep (now : Nat) (acc : TaskService × List Effect)
    (taskId : String) (h : Inv acc.1) : Inv (shutdownStep now acc taskId).1 := by
  have := inv_updateTask acc.1 taskId { status := some .cancelled } now h
  simpa [shutdownStep] using this

theorem inv_shutdown_foldl (now : Nat) (ids : List String) :
    ∀ (st : TaskService) (effs : List Effect), Inv st →
    Inv ((ids.foldl (shutdownStep now) (st, effs)).1) := by
  induction ids with
  | nil => intro st effs h; exact h
  | cons tid rest ih =>
    intro st effs h
    exact ih _ _ (inv_shutdownStep now (st, effs) tid h)

theorem inv_shutdownDueToParentExit (s : TaskService) (now : Nat) (h : Inv s) :
    Inv (shutdownDueToParentExit s now).1 := by
  simp only [shutdownDueToParentExit]
  exact inv_destroy _ now (inv_shutdown_foldl now _ _ _ h)

theorem inv_checkParentProcess (s : TaskService) (ppid : Int) (alive : Bool)
    (now : Nat) (h : Inv s) : Inv (checkParentProcess s ppid alive now).1 := by
  by_cases hp : ppid ≤ 1
  · simpa [checkParentProcess, hp] using inv_shutdownDueToParentExit s now h
  · cases alive with
    | true => simpa [checkParentProcess, hp] using h
    | false => simpa [checkParentProcess, hp] using inv_shutdownDueToParentExit s now h

/-- Registry states reachable from the freshly constructed TaskService by
sequences of its operations. The freshness hypotheses of the create step
model randomUUID never reusing an id. -/
inductive Reachable : TaskService → Prop where
  | base : Reachable TaskService.mk0
  | create (s : TaskService) (taskId message : String) (prev wd : Option String)
      (now : Nat) :
      Reachable s →
      mapGet s.activeTasks taskId = none →
      mapGet s.completedTasks taskId = none →
      Reachable (createTask s taskId message prev wd now).1
  | update (s : TaskService) (taskId : String) (u : TaskUpdates) (now : Nat) :
      Reachable s → Reachable (updateTask s taskId u now).1
  | cancel (s : TaskService) (taskId : String) (now : Nat) :
      Reachable s → Reachable (cancelTask s taskId now).1
  | sweep (s : TaskService) (now : Nat) :
      Reachable s → Reachable (cleanup s now)
  | teardown (s : TaskService) (now : Nat) :
      Reachable s → Reachable (destroy s now).1
  | parentCheck (s : TaskService) (ppid : Int) (alive : Bool) (now : Nat) :
      Reachable s → Reachable (checkParentProcess s ppid alive now).1

theorem reachable_inv (s : TaskService) (h : Reachable s) : Inv s := by
  induction h with
  | base =>
    refine ⟨?_, ?_, ?_, ?_⟩ <;> simp [TaskService.mk0, KeysNodup, mapGet]
  | create s taskId message prev wd now _ _ hfresh ih =>
    exact inv_createTask s taskId message prev wd now ih hfresh
  | update s taskId u now _ ih => exact inv_updateTask s taskId u now ih
  | cancel s taskId now _ ih => exact inv_cancelTask s taskId now ih
  | sweep s now _ ih => exact inv_cleanup s now ih
  | teardown s now _ ih => exact inv_destroy s now ih
  | parentCheck s ppid alive now _ ih => exact inv_checkParentProcess s ppid alive now ih

/-- With the invariant, a terminal task can only be found in the completed
map, and its id is absent from the active map. -/
theorem terminal_not_active (s : TaskService) (taskId : String) (t : Task)
    (h : Inv s) (hg : getTask s taskId = some t)
    (ht : t.status.isTerminal = true) :
    mapGet s.activeTasks taskId = none ∧ mapGet s.completedTasks taskId = some t := by
  cases ha : mapGet s.activeTasks taskId with
  | some t' =>
    have ht' : t' = t := by
      simpa [getTask, ha] using hg
    have hmem := mapGet_eq_some_mem _ _ _ ha
    have hnt := h.1 (taskId, t') hmem
    rw [ht'] at hnt
    rw [hnt] at ht
    exact absurd ht (by simp)
  | none =>
    refine ⟨rfl, ?_⟩
    simpa [getTask, ha] using hg

end ClaudeMcp

namespace ClaudeMcp

theorem mapGet_isSome_of_mem (m : List (String × Task)) (k : String) (t : Task)
    (hm : (k, t) ∈ m) : mapGet m k ≠ none := by
  induction m with
  | nil => simp at hm
  | cons p rest ih =>
    by_cases hp : p.1 = k
    · simp [mapGet, hp]
    · rcases List.mem_cons.mp hm with hc | hc
      · exact absurd (by rw [← hc]) hp
      · simp only [mapGet, hp]
        simpa [hp] using ih hc

theorem mapGet_of_mem_nodup (m : List (String × Task)) (k : String) (t : Task)
    (h : KeysNodup m) (hm : (k, t) ∈ m) : mapGet m k = some t := by
  induction m with
  | nil => simp at hm
  | cons p rest ih =>
    rcases List.pairwise_cons.mp h with ⟨hhead, htail⟩
    rcases List.mem_cons.mp hm with hc | hc
    · rw [← hc]
      simp [mapGet]
    · have hne : p.1 ≠ k := hhead (k, t) hc
      simp only [mapGet, hne]
      simpa [hne] using ih htail hc

theorem eq_nil_of_mapGet_none (m : List (String × Task))
    (h : ∀ k, mapGet m k = none) : m = [] := by
  cases m with
  | nil => rfl
  | cons p rest =>
    exfalso
    have := h p.1
    simp [mapGet] at this

theorem nodup_fst_of_keysNodup (m : List (String × Task)) (h : KeysNodup m) :
    (m.map Prod.fst).Nodup := by
  unfold List.Nodup
  rw [List.pairwise_map]
  exact h

theorem mapGet_filter_iff (m : List (String × Task)) (f : String × Task → Bool)
    (k : String) (t : Task) (h : KeysNodup m) :
    mapGet (m.filter f) k = some t ↔ (mapGet m k = some t ∧ f (k, t) = true) := by
  induction m with
  | nil => simp [mapGet]
  | cons p rest ih =>
    rcases List.pairwise_cons.mp h with ⟨hhead, htail⟩
    by_cases hp : p.1 = k
    · have hpk : p = (k, p.2) := by
        cases p
        simp_all
      by_cases hf : f p
      · rw [show (p :: rest).filter f = p :: rest.filter f by simp [hf]]
        simp only [mapGet, hp, if_pos, beq_self_eq_true]
        constructor
        · intro hs
          have : p.2 = t := by simpa [hp] using hs
          refine ⟨by simpa [hp] using hs, ?_⟩
          rw [← this, ← hpk]
          exact hf
        · intro ⟨hs, _⟩
          simpa [hp] using hs

      · rw [show (p :: rest).filter f = rest.filter f by simp [hf]]
        have hnone : mapGet rest k = none := by
          rw [mapGet_eq_none_iff]
          intro t' hmem
          exact hhead (k, t') hmem (by simp [hp])
        have : mapGet (rest.filter f) k = none := mapGet_filter_none _ _ _ hnone
        rw [this]
        simp only [mapGet, hp, if_pos, beq_self_eq_true]
        constructor
        · intro hs
          exact absurd hs (by simp)
        · intro ⟨hs, hft⟩
          have : p.2 = t := by simpa [hp] using hs
          rw [← this, ← hpk] at hft
          exact absurd hft (by simp [hf])
    · by_cases hf : f p
      · rw [show (p :: rest).filter f = p :: rest.filter f by simp [hf]]
        simp only [mapGet, hp]
        simpa [hp] using ih htail
      · rw [show (p :: rest).filter f = rest.filter f by simp [hf]]
        simp only [mapGet, hp]
        simpa [hp] using ih htail

end ClaudeMcp

namespace ClaudeMcp

/-- C1 (amended): for every task in the active set holding a live process
handle, cancelTask returns true and transitions the task's state to
cancelled but leaves the process handle in place (the handle is not
cleared); for every task id that is unknown to the active set, whose task
has no process handle yet, or that is already in a terminal state,
cancelTask returns false and leaves the registry unchanged. -/
theorem claim_C1_cancelTask (s : TaskService) (taskId : String) (now : Nat)
    (hr : Reachable s) :
    (∀ t p, mapGet s.activeTasks taskId = some t → t.process = some p →
      (cancelTask s taskId now).2.2 = true ∧
      getTask (cancelTask s taskId now).1 taskId =
        some { t with status := .cancelled, updatedAt := now } ∧
      ({ t with status := .cancelled, updatedAt := now } : Task).process = some p) ∧
    (mapGet s.activeTasks taskId = none → cancelTask s taskId now = (s, [], false)) ∧
    (∀ t, mapGet s.activeTasks taskId = some t → t.process = none →
      cancelTask s taskId now = (s, [], false)) ∧
    (∀ t, getTask s taskId = some t → t.status.isTerminal = true →
      cancelTask s taskId now = (s, [], false)) := by
  obtain ⟨hact, hka, hkc, hdisj⟩ := reachable_inv s hr
  refine ⟨?_, ?_, ?_, ?_⟩
  · intro t p hg hp
    refine ⟨by simp [cancelTask, hg, hp], ?_, hp⟩
    have hstate : (cancelTask s taskId now).1 =
        { s with activeTasks := mapDel s.activeTasks taskId,
                 completedTasks := mapSet s.completedTasks taskId
                   ({ t with status := .cancelled, updatedAt := now }) } := by
      simp [cancelTask, hg, hp, updateTask, updatesTerminal, TaskStatus.isTerminal,
            assignUpdates]
    rw [hstate]
    simp [getTask, mapGet_del_self _ _ hka, mapGet_set_self]
  · intro h
    simp [cancelTask, h]
  · intro t hg hp
    simp [cancelTask, hg, hp]
  · intro t hg ht
    obtain ⟨hanone, _⟩ :=
      terminal_not_active s taskId t ⟨hact, hka, hkc, hdisj⟩ hg ht
    simp [cancelTask, hanone]

/-- Process handle used by the concrete cancellation scenarios. -/
def procA : Proc := { pid := 7, groupKillOk := true }

/-- The running task of the concrete cancellation scenario. -/
def taskC1 : Task :=
  { id := "t1", message := "hi", previousResponseId := none, workingDirectory := none,
    status := .running, result := none, error := none, createdAt := 0, updatedAt := 1,
    process := some procA }

/-- A registry holding one running task with a process handle, built by the
registry operations themselves. -/
def svcC1 : TaskService :=
  (updateTask (createTask TaskService.mk0 "t1" "hi" none none 0).1 "t1"
    { status := some .running, process := some (some procA) } 1).1

/-- C1 counterexample: cancelTask on an active task with a live handle
returns true and cancels the task, but the relocated record still holds the
process handle — it is not cleared (set absent) as the claim states. -/
theorem claim_C1_counterexample :
    (cancelTask svcC1 "t1" 5).2.2 = true ∧
    (getTask (cancelTask svcC1 "t1" 5).1 "t1").map Task.process = some (some procA) ∧
    some (some procA) ≠ (some (none : Option Proc) : Option (Option Proc)) := by
  refine ⟨rfl, rfl, by simp⟩

/-- C1 witness: the amended theorem applied to the concrete scenario. -/
theorem claim_C1_witness :
    (cancelTask svcC1 "t1" 5).2.2 = true ∧
    getTask (cancelTask svcC1 "t1" 5).1 "t1" =
      some { taskC1 with status := .cancelled, updatedAt := 5 } ∧
    ({ taskC1 with status := .cancelled, updatedAt := 5 } : Task).process = some procA := by
  have hr : Reachable svcC1 :=
    Reachable.update _ "t1" _ 1
      (Reachable.create TaskService.mk0 "t1" "hi" none none 0 Reachable.base rfl rfl)
  exact (claim_C1_cancelTask svcC1 "t1" 5 hr).1 taskC1 procA rfl rfl

/-- C2: once a task is terminal, no later updateTask call — against this id
or any other — changes the record observed through getTask: the late update
is discarded as a no-op, on every reachable registry state. -/
theorem claim_C2_terminal_immutable (s : TaskService) (taskId : String) (t : Task)
    (hr : Reachable s) (hg : getTask s taskId = some t)
    (ht : t.status.isTerminal = true) (taskId' : String) (u : TaskUpdates) (now : Nat) :
    getTask (updateTask s taskId' u now).1 taskId = some t := by
  have hinv := reachable_inv s hr
  obtain ⟨hanone, hcsome⟩ := terminal_not_active s taskId t hinv hg ht
  cases hg' : mapGet s.activeTasks taskId' with
  | none =>
    simpa [updateTask, hg'] using hg
  | some task' =>
    have hne : taskId ≠ taskId' := by
      intro he
      rw [← he, hanone] at hg'
      exact Option.noConfusion hg'
    by_cases hterm : updatesTerminal u
    · have hstate : (updateTask s taskId' u now).1 =
          { s with activeTasks := mapDel s.activeTasks taskId',
                   completedTasks := mapSet s.completedTasks taskId'
                     (assignUpdates task' u now) } := by
        simp [updateTask, hg', hterm]
      rw [hstate]
      simp [getTask, mapGet_del_ne _ _ _ hne, hanone, mapGet_set_ne _ _ _ _ hne, hcsome]
    · have hstate : (updateTask s taskId' u now).1 =
          { s with activeTasks := mapSet s.activeTasks taskId'
                     (assignUpdates task' u now) } := by
        simp [updateTask, hg', hterm]
      rw [hstate]
      simp [getTask, mapGet_set_ne _ _ _ _ hne, hanone, hcsome]

/-- The completed task of the concrete late-update scenario. -/
def taskC2 : Task :=
  { id := "t1", message := "hi", previousResponseId := none, workingDirectory := none,
    status := .completed, result := some (Json.str "ok"), error := none, createdAt := 0,
    updatedAt := 2, process := none }

/-- A registry holding one completed task, built by the registry operations. -/
def svcC2 : TaskService :=
  (updateTask (createTask TaskService.mk0 "t1" "hi" none none 0).1 "t1"
    { status := some .completed, result := some (some (Json.str "ok")) } 2).1

/-- C2 witness: a late failure event against the completed task is discarded. -/
theorem claim_C2_witness :
    getTask (updateTask svcC2 "t1"
      { status := some .failed, error := some (some "late") } 9).1 "t1" = some taskC2 := by
  have hr : Reachable svcC2 :=
    Reachable.update _ "t1" _ 2
      (Reachable.create TaskService.mk0 "t1" "hi" none none 0 Reachable.base rfl rfl)
  exact claim_C2_terminal_immutable svcC2 "t1" taskC2 hr rfl rfl "t1"
    { status := some .failed, error := some (some "late") } 9

end ClaudeMcp

namespace ClaudeMcp

/-- C3: a successful updateTask merge always stamps updatedAt with the
current time; when the merged state is terminal the record is relocated from
the active map to the completed map in the same operation, otherwise it
stays in the active map only; the set of ids visible to getTask is
preserved, and no id is ever present in both maps. -/
theorem claim_C3_update_relocation (s : TaskService) (taskId : String) (t : Task)
    (u : TaskUpdates) (now : Nat) (hr : Reachable s)
    (hg : mapGet s.activeTasks taskId = some t) :
    (assignUpdates t u now).updatedAt = now ∧
    getTask (updateTask s taskId u now).1 taskId = some (assignUpdates t u now) ∧
    ((assignUpdates t u now).status.isTerminal = true →
      mapGet (updateTask s taskId u now).1.activeTasks taskId = none ∧
      mapGet (updateTask s taskId u now).1.completedTasks taskId =
        some (assignUpdates t u now)) ∧
    ((assignUpdates t u now).status.isTerminal = false →
      mapGet (updateTask s taskId u now).1.activeTasks taskId =
        some (assignUpdates t u now) ∧
      mapGet (updateTask s taskId u now).1.completedTasks taskId = none) ∧
    (∀ k, ((mapGet (updateTask s taskId u now).1.activeTasks k).isSome ∨
           (mapGet (updateTask s taskId u now).1.completedTasks k).isSome) ↔
          ((mapGet s.activeTasks k).isSome ∨ (mapGet s.completedTasks k).isSome)) ∧
    (∀ k, ¬((mapGet (updateTask s taskId u now).1.activeTasks k).isSome ∧
            (mapGet (updateTask s taskId u now).1.completedTasks k).isSome)) := by
  obtain ⟨hact, hka, hkc, hdisj⟩ := reachable_inv s hr
  have hmem := mapGet_eq_some_mem _ _ _ hg
  have htns : t.status.isTerminal = false := hact (taskId, t) hmem
  have hiff : updatesTerminal u = (assignUpdates t u now).status.isTerminal := by
    cases hu : u.status with
    | some st => simp [updatesTerminal, hu, assignUpdates]
    | none => simp [updatesTerminal, hu, assignUpdates, htns]
  cases hterm : updatesTerminal u with
  | true =>
    have hmt : (assignUpdates t u now).status.isTerminal = true := by
      rw [← hiff]
      exact hterm
    have hstate : (updateTask s taskId u now).1 =
        { s with activeTasks := mapDel s.activeTasks taskId,
                 completedTasks := mapSet s.completedTasks taskId
                   (assignUpdates t u now) } := by
      simp [updateTask, hg, hterm]
    rw [hstate]
    refine ⟨rfl, ?_, ?_, ?_, ?_, ?_⟩
    · simp [getTask, mapGet_del_self _ _ hka, mapGet_set_self]
    · intro _
      exact ⟨mapGet_del_self _ _ hka, mapGet_set_self _ _ _⟩
    · intro hfalse
      rw [hmt] at hfalse
      exact absurd hfalse (by simp)
    · intro k
      by_cases hk : k = taskId
      · subst hk
        simp [mapGet_del_self _ _ hka, mapGet_set_self, hg]
      · have e1 := mapGet_del_ne s.activeTasks taskId k hk
        have e2 := mapGet_set_ne s.completedTasks taskId k (assignUpdates t u now) hk
        simp only [e1, e2]
    · intro k
      by_cases hk : k = taskId
      · subst hk
        simp [mapGet_del_self _ _ hka]
      · have e1 := mapGet_del_ne s.activeTasks taskId k hk
        have e2 := mapGet_set_ne s.completedTasks taskId k (assignUpdates t u now) hk
        simp only [e1, e2]
        rcases hdisj k with hd | hd <;> simp [hd]
  | false =>
    have hmf : (assignUpdates t u now).status.isTerminal = false := by
      rw [← hiff]
      exact hterm
    have hcnone : mapGet s.completedTasks taskId = none := by
      rcases hdisj taskId with hd | hd
      · rw [hd] at hg
        exact Option.noConfusion hg
      · exact hd
    have hstate : (updateTask s taskId u now).1 =
        { s with activeTasks := mapSet s.activeTasks taskId
                   (assignUpdates t u now) } := by
      simp [updateTask, hg, hterm]
    rw [hstate]
    refine ⟨rfl, ?_, ?_, ?_, ?_, ?_⟩
    · simp [getTask, mapGet_set_self]
    · intro hfalse
      rw [hmf] at hfalse
      exact absurd hfalse (by simp)
    · intro _
      exact ⟨mapGet_set_self _ _ _, hcnone⟩
    · intro k
      by_cases hk : k = taskId
      · subst hk
        simp [mapGet_set_self, hg]
      · have e1 := mapGet_set_ne s.activeTasks taskId k (assignUpdates t u now) hk
        simp only [e1]
    · intro k
      by_cases hk : k = taskId
      · subst hk
        simp [hcnone]
      · have e1 := mapGet_set_ne s.activeTasks taskId k (assignUpdates t u now) hk
        simp only [e1]
        rcases hdisj k with hd | hd <;> simp [hd]

/-- The pending task of the concrete relocation scenario. -/
def taskC3 : Task :=
  { id := "a", message := "msg", previousResponseId := none, workingDirectory := none,
    status := .pending, result := none, error := none, createdAt := 0, updatedAt := 0,
    process := none }

/-- A registry with one pending task, built by createTask. -/
def svcC3 : TaskService := (createTask TaskService.mk0 "a" "msg" none none 0).1

/-- C3 witness: completing the pending task refreshes updatedAt and moves it
from the active map to the completed map in the same operation. -/
theorem claim_C3_witness :
    (assignUpdates taskC3 { status := some .completed } 4).updatedAt = 4 ∧
    getTask (updateTask svcC3 "a" { status := some .completed } 4).1 "a" =
      some (assignUpdates taskC3 { status := some .completed } 4) ∧
    mapGet (updateTask svcC3 "a" { status := some .completed } 4).1.activeTasks "a" = none ∧
    mapGet (updateTask svcC3 "a" { status := some .completed } 4).1.completedTasks "a" =
      some (assignUpdates taskC3 { status := some .completed } 4) := by
  have hr : Reachable svcC3 :=
    Reachable.create TaskService.mk0 "a" "msg" none none 0 Reachable.base rfl rfl
  have h := claim_C3_update_relocation svcC3 "a" taskC3 { status := some .completed } 4 hr rfl
  exact ⟨h.1, h.2.1, (h.2.2.1 rfl).1, (h.2.2.1 rfl).2⟩

/-- C9: one run of the cleanup sweep keeps exactly the completed-map entries
whose updatedAt is not older than the one-hour retention window, never
touches the active map, and the sweep is scheduled every 5 minutes. -/
theorem claim_C9_cleanup (s : TaskService) (now : Nat) (hr : Reachable s) :
    (cleanup s now).activeTasks = s.activeTasks ∧
    (∀ taskId t, mapGet (cleanup s now).completedTasks taskId = some t ↔
      (mapGet s.completedTasks taskId = some t ∧
       ¬(t.updatedAt < now - RETENTION_MS))) ∧
    CLEANUP_INTERVAL_MS = 5 * 60 * 1000 ∧
    RETENTION_MS = 60 * 60 * 1000 := by
  obtain ⟨_, _, hkc, _⟩ := reachable_inv s hr
  refine ⟨rfl, ?_, rfl, rfl⟩
  intro taskId t
  rw [show (cleanup s now).completedTasks =
      s.completedTasks.filter
        (fun p => !(decide (p.2.updatedAt < now - RETENTION_MS))) from rfl]
  rw [mapGet_filter_iff _ _ _ _ hkc]
  simp

/-- The stale completed task of the concrete cleanup scenario. -/
def taskOld : Task :=
  { id := "old", message := "m", previousResponseId := none, workingDirectory := none,
    status := .completed, result := none, error := none, createdAt := 0, updatedAt := 0,
    process := none }

/-- The fresh completed task of the concrete cleanup scenario. -/
def taskYoung : Task :=
  { id := "young", message := "m", previousResponseId := none, workingDirectory := none,
    status := .completed, result := none, error := none, createdAt := 3600000,
    updatedAt := 3600000, process := none }

/-- A registry with one stale and one fresh completed task, built by the
registry operations. -/
def svcC9 : TaskService :=
  (updateTask
    (createTask
      (updateTask (createTask TaskService.mk0 "old" "m" none none 0).1 "old"
        { status := some .completed } 0).1
      "young" "m" none none 3600000).1
    "young" { status := some .completed } 3600000).1

/-- C9 witness: at two hours, the sweep purges the task last updated at time
zero and keeps the one updated an hour ago; the active map is untouched. -/
theorem claim_C9_witness :
    (cleanup svcC9 7200000).activeTasks = svcC9.activeTasks ∧
    mapGet (cleanup svcC9 7200000).completedTasks "old" = none ∧
    mapGet (cleanup svcC9 7200000).completedTasks "young" = some taskYoung := by
  have hr : Reachable svcC9 :=
    Reachable.update _ "young" _ 3600000
      (Reachable.create _ "young" "m" none none 3600000
        (Reachable.update _ "old" _ 0
          (Reachable.create TaskService.mk0 "old" "m" none none 0 Reachable.base rfl rfl))
        rfl rfl)
  have h := claim_C9_cleanup svcC9 7200000 hr
  refine ⟨h.1, ?_, ?_⟩
  · cases hx : mapGet (cleanup svcC9 7200000).completedTasks "old" with
    | none => rfl
    | some t =>
      obtain ⟨h1, h2⟩ := (h.2.1 "old" t).mp hx
      rw [show mapGet svcC9.completedTasks "old" = some taskOld from rfl] at h1
      have ht : taskOld = t := Option.some.inj h1
      rw [← ht] at h2
      exact absurd (by decide) h2
  · exact (h.2.1 "young" taskYoung).mpr ⟨rfl, by decide⟩

end ClaudeMcp

namespace ClaudeMcp

theorem shutdownStep_fst (now : Nat) (acc : TaskService × List Effect) (taskId : String) :
    (shutdownStep now acc taskId).1 =
      (updateTask acc.1 taskId { status := some .cancelled } now).1 := rfl

theorem shutdownStep_effects_mono (now : Nat) (acc : TaskService × List Effect)
    (taskId : String) (e : Effect) (he : e ∈ acc.2) :
    e ∈ (shutdownStep now acc taskId).2 := by
  simp only [shutdownStep]
  exact List.mem_append_left _ (List.mem_append_left _ (List.mem_append_left _ he))

theorem shutdownStep_notif_mem (now : Nat) (acc : TaskService × List Effect)
    (taskId : String) :
    Effect.mcpNotification "task/cancelled" taskId (some "parent_process_exit")
      ∈ (shutdownStep now acc taskId).2 := by
  simp only [shutdownStep]
  apply List.mem_append_left
  apply List.mem_append_left
  apply List.mem_append_right
  simp

theorem shutdownStep_kill_mem (now : Nat) (acc : TaskService × List Effect)
    (taskId : String) (t : Task) (p : Proc)
    (hg : mapGet acc.1.activeTasks taskId = some t) (hp : t.process = some p) :
    ∀ e ∈ killWithFallback p, e ∈ (shutdownStep now acc taskId).2 := by
  intro e he
  simp only [shutdownStep, hg, hp]
  apply List.mem_append_left
  apply List.mem_append_right
  exact he

theorem updateTask_terminal_state (s : TaskService) (taskId : String) (t : Task)
    (u : TaskUpdates) (now : Nat) (hg : mapGet s.activeTasks taskId = some t)
    (hterm : updatesTerminal u = true) :
    (updateTask s taskId u now).1 =
      { s with activeTasks := mapDel s.activeTasks taskId,
               completedTasks := mapSet s.completedTasks taskId
                 (assignUpdates t u now) } := by
  simp [updateTask, hg, hterm]

theorem shutdown_foldl_mono (now : Nat) (ids : List String) :
    ∀ (acc : TaskService × List Effect) (e : Effect), e ∈ acc.2 →
      e ∈ (ids.foldl (shutdownStep now) acc).2 := by
  induction ids with
  | nil => intro acc e he; exact he
  | cons tid rest ih =>
    intro acc e he
    exact ih _ e (shutdownStep_effects_mono now acc tid e he)

theorem shutdown_foldl_spec (now : Nat) (ids : List String) :
    ∀ (st : TaskService) (effs : List Effect),
    ids.Nodup →
    KeysNodup st.activeTasks →
    (∀ id ∈ ids, mapGet st.activeTasks id ≠ none) →
    (∀ e ∈ effs, e ∈ (ids.foldl (shutdownStep now) (st, effs)).2) ∧
    (∀ id ∈ ids, ∀ t, mapGet st.activeTasks id = some t →
      (Effect.mcpNotification "task/cancelled" id (some "parent_process_exit")
        ∈ (ids.foldl (shutdownStep now) (st, effs)).2) ∧
      (∀ p, t.process = some p →
        ∀ e ∈ killWithFallback p, e ∈ (ids.foldl (shutdownStep now) (st, effs)).2) ∧
      mapGet (ids.foldl (shutdownStep now) (st, effs)).1.completedTasks id =
        some (assignUpdates t { status := some .cancelled } now) ∧
      mapGet (ids.foldl (shutdownStep now) (st, effs)).1.activeTasks id = none) ∧
    (∀ j, j ∉ ids →
      mapGet (ids.foldl (shutdownStep now) (st, effs)).1.activeTasks j =
        mapGet st.activeTasks j ∧
      mapGet (ids.foldl (shutdownStep now) (st, effs)).1.completedTasks j =
        mapGet st.completedTasks j) ∧
    KeysNodup (ids.foldl (shutdownStep now) (st, effs)).1.activeTasks ∧
    (ids.foldl (shutdownStep now) (st, effs)).1.cleanupTimer = st.cleanupTimer ∧
    (ids.foldl (shutdownStep now) (st, effs)).1.parentCheckTimer = st.parentCheckTimer := by
  induction ids with
  | nil =>
    intro st effs _ hka _
    exact ⟨fun e he => he, by simp, fun j _ => ⟨rfl, rfl⟩, hka, rfl, rfl⟩
  | cons tid rest ih =>
    intro st effs hnodup hka hall
    rcases List.nodup_cons.mp hnodup with ⟨htidnot, hrestnodup⟩
    cases hg : mapGet st.activeTasks tid with
    | none => exact absurd hg (hall tid (List.mem_cons_self _ _))
    | some t =>
    have hst1 : (shutdownStep now (st, effs) tid).1 =
        { st with activeTasks := mapDel st.activeTasks tid,
                  completedTasks := mapSet st.completedTasks tid
                    (assignUpdates t { status := some .cancelled } now) } := by
      rw [shutdownStep_fst]
      exact updateTask_terminal_state st tid t _ now hg rfl
    have hfold : (tid :: rest).foldl (shutdownStep now) (st, effs) =
        rest.foldl (shutdownStep now) (shutdownStep now (st, effs) tid) := rfl
    have ihyp3 : ∀ id ∈ rest, mapGet (shutdownStep now (st, effs) tid).1.activeTasks id ≠ none := by
      intro id hid
      have hne : id ≠ tid := fun he => htidnot (he ▸ hid)
      rw [hst1]
      have e1 := mapGet_del_ne st.activeTasks tid id hne
      simpa [e1] using hall id (List.mem_cons_of_mem _ hid)
    have ihyp2 : KeysNodup (shutdownStep now (st, effs) tid).1.activeTasks := by
      rw [hst1]
      exact keysNodup_del _ _ hka
    obtain ⟨IH1, IH2, IH3, IH4, IH5, IH6⟩ :=
      ih (shutdownStep now (st, effs) tid).1 (shutdownStep now (st, effs) tid).2
        hrestnodup ihyp2 ihyp3
    rw [hfold]
    refine ⟨?_, ?_, ?_, ?_, ?_, ?_⟩
    · intro e he
      exact IH1 e (shutdownStep_effects_mono now (st, effs) tid e he)
    · intro id hid t' hgt'
      rcases List.mem_cons.mp hid with hc | hc
      · subst hc
        rw [hg] at hgt'
        have htt : t = t' := Option.some.inj hgt'
        subst htt
        refine ⟨IH1 _ (shutdownStep_notif_mem now (st, effs) id), ?_, ?_, ?_⟩
        · intro p hp e he
          exact IH1 e (shutdownStep_kill_mem now (st, effs) id t p hg hp e he)
        · have := (IH3 id htidnot).2
          rw [this, hst1]
          exact mapGet_set_self _ _ _
        · have := (IH3 id htidnot).1
          rw [this, hst1]
          exact mapGet_del_self _ _ hka
      · have hne : id ≠ tid := fun he => htidnot (he ▸ hc)
        have hgt1 : mapGet (shutdownStep now (st, effs) tid).1.activeTasks id = some t' := by
          rw [hst1]
          have e1 := mapGet_del_ne st.activeTasks tid id hne
          simpa [e1] using hgt'
        exact IH2 id hc t' hgt1
    · intro j hj
      have hjtid : j ≠ tid := fun he => hj (he ▸ List.mem_cons_self _ _)
      have hjrest : j ∉ rest := fun hh => hj (List.mem_cons_of_mem _ hh)
      obtain ⟨ha, hb⟩ := IH3 j hjrest
      constructor
      · rw [ha, hst1]
        exact mapGet_del_ne _ _ _ hjtid
      · rw [hb, hst1]
        exact mapGet_set_ne _ _ _ _ hjtid
    · exact IH4
    · rw [IH5, hst1]
    · rw [IH6, hst1]

end ClaudeMcp

namespace ClaudeMcp

/-- C8: when the watchdog detects the parent is gone (ppid at most 1, or the
liveness probe fails), every active task gets a cancellation notification
tagged parent_process_exit, its process group is signalled with
single-process fallback when it holds a handle, and it is transitioned to
cancelled in the completed map; both registry timers are stopped and the
host process exits with code 0. -/
theorem claim_C8_watchdog (s : TaskService) (ppid : Int) (alive : Bool) (now : Nat)
    (hr : Reachable s) (hgone : ppid ≤ 1 ∨ alive = false) :
    (checkParentProcess s ppid alive now).2.2 = some 0 ∧
    (checkParentProcess s ppid alive now).1.activeTasks = [] ∧
    (checkParentProcess s ppid alive now).1.cleanupTimer = false ∧
    (checkParentProcess s ppid alive now).1.parentCheckTimer = false ∧
    (∀ pr ∈ s.activeTasks,
      Effect.mcpNotification "task/cancelled" pr.1 (some "parent_process_exit")
        ∈ (checkParentProcess s ppid alive now).2.1 ∧
      (∀ p, pr.2.process = some p →
        ∀ e ∈ killWithFallback p, e ∈ (checkParentProcess s ppid alive now).2.1) ∧
      mapGet (checkParentProcess s ppid alive now).1.completedTasks pr.1 =
        some (assignUpdates pr.2 { status := some .cancelled } now) ∧
      (assignUpdates pr.2 { status := some .cancelled } now).status = .cancelled) := by
  obtain ⟨hact, hka, hkc, hdisj⟩ := reachable_inv s hr
  have hred : checkParentProcess s ppid alive now = shutdownDueToParentExit s now := by
    rcases hgone with h | h
    · simp [checkParentProcess, h]
    · by_cases hp : ppid ≤ 1
      · simp [checkParentProcess, hp]
      · simp [checkParentProcess, hp, h]
  rw [hred]
  have hnodup : (s.activeTasks.map Prod.fst).Nodup := nodup_fst_of_keysNodup _ hka
  have hallsome : ∀ id ∈ s.activeTasks.map Prod.fst, mapGet s.activeTasks id ≠ none := by
    intro id hid
    obtain ⟨p, hpmem, hpeq⟩ := List.mem_map.mp hid
    have hm : (id, p.2) ∈ s.activeTasks := by
      rw [← hpeq]
      exact hpmem
    exact mapGet_isSome_of_mem _ _ _ hm
  obtain ⟨SP1, SP2, SP3, SP4, SP5, SP6⟩ :=
    shutdown_foldl_spec now (s.activeTasks.map Prod.fst) s [] hnodup hka hallsome
  have hempty :
      ((s.activeTasks.map Prod.fst).foldl (shutdownStep now) (s, [])).1.activeTasks = [] := by
    apply eq_nil_of_mapGet_none
    intro k
    by_cases hk : k ∈ s.activeTasks.map Prod.fst
    · cases hgk : mapGet s.activeTasks k with
      | none => exact absurd hgk (hallsome k hk)
      | some t => exact (SP2 k hk t hgk).2.2.2
    · rw [(SP3 k hk).1, mapGet_eq_none_iff]
      intro t hmem
      exact hk (List.mem_map.mpr ⟨(k, t), hmem, rfl⟩)
  have hdes : destroy ((s.activeTasks.map Prod.fst).foldl (shutdownStep now) (s, [])).1 now =
      ({ ((s.activeTasks.map Prod.fst).foldl (shutdownStep now) (s, [])).1 with
          cleanupTimer := false, parentCheckTimer := false }, []) := by
    simp [destroy, hempty]
  have hout : shutdownDueToParentExit s now =
      ({ ((s.activeTasks.map Prod.fst).foldl (shutdownStep now) (s, [])).1 with
          cleanupTimer := false, parentCheckTimer := false },
       ((s.activeTasks.map Prod.fst).foldl (shutdownStep now) (s, [])).2, some 0) := by
    simp only [shutdownDueToParentExit, hdes]
    simp
  rw [hout]
  refine ⟨rfl, hempty, rfl, rfl, ?_⟩
  intro pr hpr
  have hid : pr.1 ∈ s.activeTasks.map Prod.fst := List.mem_map.mpr ⟨pr, hpr, rfl⟩
  have hgot : mapGet s.activeTasks pr.1 = some pr.2 := mapGet_of_mem_nodup _ _ _ hka hpr
  obtain ⟨hnotif, hkill, hcomp, _⟩ := SP2 pr.1 hid pr.2 hgot
  exact ⟨hnotif, hkill, hcomp, rfl⟩

/-- A second process handle (one whose group-wide signal the OS refuses). -/
def procB : Proc := { pid := 9, groupKillOk := false }

/-- First running task of the concrete watchdog scenario. -/
def taskC8a : Task :=
  { id := "a", message := "m1", previousResponseId := none, workingDirectory := none,
    status := .running, result := none, error := none, createdAt := 0, updatedAt := 0,
    process := some procA }

/-- Second running task of the concrete watchdog scenario. -/
def taskC8b : Task :=
  { id := "b", message := "m2", previousResponseId := none, workingDirectory := none,
    status := .running, result := none, error := none, createdAt := 0, updatedAt := 0,
    process := some procB }

/-- A registry with two running tasks holding process handles. -/
def svcC8 : TaskService :=
  (updateTask
    (createTask
      (updateTask (createTask TaskService.mk0 "a" "m1" none none 0).1 "a"
        { status := some .running, process := some (some procA) } 0).1
      "b" "m2" none none 0).1
    "b" { status := some .running, process := some (some procB) } 0).1

/-- C8 witness: with the parent reparented to init (ppid 1), both running
tasks are notified with the parent-exit reason, their process groups are
signalled (group-wide for the first, single-process fallback for the
second), both become cancelled, the timers stop, and the host exits 0. -/
theorem claim_C8_witness :
    (checkParentProcess svcC8 1 true 3).2.2 = some 0 ∧
    (checkParentProcess svcC8 1 true 3).1.activeTasks = [] ∧
    (checkParentProcess svcC8 1 true 3).1.cleanupTimer = false ∧
    (checkParentProcess svcC8 1 true 3).1.parentCheckTimer = false ∧
    Effect.mcpNotification "task/cancelled" "a" (some "parent_process_exit")
      ∈ (checkParentProcess svcC8 1 true 3).2.1 ∧
    Effect.mcpNotification "task/cancelled" "b" (some "parent_process_exit")
      ∈ (checkParentProcess svcC8 1 true 3).2.1 ∧
    Effect.groupSignal 7 ∈ (checkParentProcess svcC8 1 true 3).2.1 ∧
    Effect.singleSignal 9 ∈ (checkParentProcess svcC8 1 true 3).2.1 ∧
    mapGet (checkParentProcess svcC8 1 true 3).1.completedTasks "a" =
      some (assignUpdates taskC8a { status := some .cancelled } 3) ∧
    mapGet (checkParentProcess svcC8 1 true 3).1.completedTasks "b" =
      some (assignUpdates taskC8b { status := some .cancelled } 3) := by
  have hr : Reachable svcC8 :=
    Reachable.update _ "b" _ 0
      (Reachable.create _ "b" "m2" none none 0
        (Reachable.update _ "a" _ 0
          (Reachable.create TaskService.mk0 "a" "m1" none none 0 Reachable.base rfl rfl))
        rfl rfl)
  have h := claim_C8_watchdog svcC8 1 true 3 hr (Or.inl (by decide))
  have hmema : ("a", taskC8a) ∈ svcC8.activeTasks := by
    rw [show svcC8.activeTasks = [("a", taskC8a), ("b", taskC8b)] from rfl]
    exact List.mem_cons_self _ _
  have hmemb : ("b", taskC8b) ∈ svcC8.activeTasks := by
    rw [show svcC8.activeTasks = [("a", taskC8a), ("b", taskC8b)] from rfl]
    exact List.mem_cons_of_mem _ (List.mem_cons_self _ _)
  obtain ⟨hna, hkilla, hca, _⟩ := h.2.2.2.2 ("a", taskC8a) hmema
  obtain ⟨hnb, hkillb, hcb, _⟩ := h.2.2.2.2 ("b", taskC8b) hmemb
  refine ⟨h.1, h.2.1, h.2.2.1, h.2.2.2.1, hna, hnb, ?_, ?_, hca, hcb⟩
  · apply hkilla procA rfl
    rw [show killWithFallback procA = [Effect.groupSignal 7] from rfl]
    exact List.mem_cons_self _ _
  · apply hkillb procB rfl
    rw [show killWithFallback procB = [Effect.singleSignal 9] from rfl]
    exact List.mem_cons_self _ _

end ClaudeMcp

namespace ClaudeMcp

/-- C4: the options objects both launcher paths pass to spawn carry
detached = false — the source passes no detached key and Node defaults it to
false — so the children are not placed in their own process groups, although
cancelTask relies on a group-wide signal. -/
theorem claim_C4_spawn_options :
    executeSyncSpawnOptions.detached = false ∧
    executeAsyncSpawnOptions.detached = false ∧
    executeSyncSpawnOptions =
      { stdinMode := "ignore", stdoutMode := "pipe", stderrMode := "pipe",
        shell := false, detached := false } ∧
    executeAsyncSpawnOptions =
      { stdinMode := "ignore", stdoutMode := "pipe", stderrMode := "pipe",
        shell := false, detached := false } :=
  ⟨rfl, rfl, rfl, rfl⟩

/-- C5: the 30-minute ceiling fires with the timeout-specific message, but
the blocking path sends no signal at all to the spawned subprocess — the
timeout callback only rejects the promise, so the child is left running. -/
theorem claim_C5_timeout_no_release :
    SYNC_TIMEOUT_MS = 30 * 60 * 1000 ∧
    (∀ stdout stderr : String,
      executeSyncOutcome SyncEvent.timeoutFired stdout stderr =
        Except.error "Agent execution timed out after 30 minutes") ∧
    executeSyncSignals SyncEvent.timeoutFired = [] :=
  ⟨rfl, fun _ _ => rfl, rfl⟩

/-- C6: a blocking execution that exits 0 resolves with the parsed JSON when
stdout parses, and otherwise with the plain-text fallback record: trimmed
stdout as the answer, the session id recovered from the Response ID pattern
in stderr when present (null otherwise), and zero cost and duration. -/
theorem claim_C6_blocking_output (stdout stderr : String) :
    (∀ v, jsonParse stdout = some v →
      executeSyncOutcome (SyncEvent.close 0) stdout stderr = Except.ok v) ∧
    (jsonParse stdout = none →
      executeSyncOutcome (SyncEvent.close 0) stdout stderr =
        Except.ok (fallbackResult stdout stderr) ∧
      (fallbackResult stdout stderr).getField "result" = some (Json.str (jsTrim stdout)) ∧
      (∀ tok, extractResponseId stderr = some tok →
        (fallbackResult stdout stderr).getField "session_id" = some (Json.str tok)) ∧
      (extractResponseId stderr = none →
        (fallbackResult stdout stderr).getField "session_id" = some Json.null) ∧
      (fallbackResult stdout stderr).getField "cost_usd" = some (Json.num "0") ∧
      (fallbackResult stdout stderr).getField "duration_ms" = some (Json.num "0")) := by
  constructor
  · intro v hv
    simp [executeSyncOutcome, parseResponse, hv]
  · intro hn
    refine ⟨by simp [executeSyncOutcome, parseResponse, hn], rfl, ?_, ?_, rfl, rfl⟩
    · intro tok htok
      simp [fallbackResult, Json.getField, htok]
    · intro hnone
      simp [fallbackResult, Json.getField, hnone]

/-- C6 witness: a JSON stdout is returned verbatim; a plain-text stdout
yields the fallback with the trimmed text, the stderr-recovered session id,
and zero cost. -/
theorem claim_C6_witness :
    executeSyncOutcome (SyncEvent.close 0)
      "\x7b\"type\":\"result\",\"result\":\"4\",\"session_id\":\"abc-123\"\x7d" "" =
      Except.ok (Json.obj [("type", .str "result"), ("result", .str "4"),
        ("session_id", .str "abc-123")]) ∧
    executeSyncOutcome (SyncEvent.close 0) "Hello world\n" "junk Response ID: abc-123\n" =
      Except.ok (fallbackResult "Hello world\n" "junk Response ID: abc-123\n") ∧
    (fallbackResult "Hello world\n" "junk Response ID: abc-123\n").getField "result" =
      some (Json.str "Hello world") ∧
    (fallbackResult "Hello world\n" "junk Response ID: abc-123\n").getField "session_id" =
      some (Json.str "abc-123") ∧
    (fallbackResult "Hello world\n" "junk Response ID: abc-123\n").getField "cost_usd" =
      some (Json.num "0") := by
  have h1 := (claim_C6_blocking_output
    "\x7b\"type\":\"result\",\"result\":\"4\",\"session_id\":\"abc-123\"\x7d" "").1
    (Json.obj [("type", .str "result"), ("result", .str "4"),
      ("session_id", .str "abc-123")]) rfl
  have h2 := (claim_C6_blocking_output "Hello world\n" "junk Response ID: abc-123\n").2 rfl
  exact ⟨h1, h2.1, h2.2.1, h2.2.2.1 "abc-123" rfl, h2.2.2.2.2.1⟩

/-- The JSON result event carried by one stdout line, when the line parses
as a value of type "result" (characterizes which lines update lastResult). -/
def resultLine (line : String) : Option Json :=
  match jsonParse line with
  | some m => if isResultType m then some m else none
  | none => none

theorem streamStep_eq (a : Option Json) (l : String) :
    streamStep a l = ((resultLine l).elim a some) := by
  unfold streamStep resultLine
  cases jsonParse l with
  | none => rfl
  | some m =>
    by_cases hm : isResultType m
    · simp [hm]
    · simp [hm]

theorem foldl_streamStep (ls : List String) : ∀ a : Option Json,
    ls.foldl streamStep a = ((ls.filterMap resultLine).getLast?).elim a some := by
  induction ls with
  | nil => intro a; simp
  | cons l ls ih =>
    intro a
    rw [List.foldl_cons, ih]
    cases hres : resultLine l with
    | none =>
      rw [List.filterMap_cons_none hres, streamStep_eq, hres]
      rfl
    | some m =>
      rw [List.filterMap_cons_some hres, streamStep_eq, hres]
      cases hL : (ls.filterMap resultLine).getLast? with
      | none =>
        have hnil : ls.filterMap resultLine = [] := List.getLast?_eq_none_iff.mp hL
        rw [hnil]
        simp
      | some y =>
        cases hcase : ls.filterMap resultLine with
        | nil =>
          rw [hcase] at hL
          simp at hL
        | cons z zs =>
          rw [hcase] at hL
          rw [List.getLast?_cons_cons, hL]
          simp

theorem foldl_processChunk (chunks : List String) : ∀ a : Option Json,
    chunks.foldl processChunk a = (chunks.flatMap chunkLines).foldl streamStep a := by
  induction chunks with
  | nil => intro a; rfl
  | cons c cs ih =>
    intro a
    rw [List.foldl_cons, ih, show (c :: cs).flatMap chunkLines =
      chunkLines c ++ cs.flatMap chunkLines from rfl, List.foldl_append]
    rfl

/-- C7: across the streamed stdout chunks, lastResult ends as the last line
that parsed as a JSON value of type "result" (malformed and other lines are
discarded); on exit 0 the task is completed with that result, and when no
result line was streamed the close handler completes the task from the last
non-empty line of the accumulated stdout instead. -/
theorem claim_C7_streaming (chunks : List String) (stdout stderr : String) :
    processStream chunks =
      ((chunks.flatMap chunkLines).filterMap resultLine).getLast? ∧
    (∀ r, processStream chunks = some r →
      asyncCloseUpdates 0 stdout stderr (processStream chunks) =
        { status := some .completed, result := some (some r), process := some none }) ∧
    (processStream chunks = none →
      ∀ lastLine,
        ((jsSplitNl (jsTrim stdout)).filter (fun l => !(trimChars l.data).isEmpty)).getLast? =
          some lastLine →
        asyncCloseUpdates 0 stdout stderr (processStream chunks) =
          { status := some .completed,
            result := some (some (parseResponse lastLine stderr)),
            process := some none }) := by
  refine ⟨?_, ?_, ?_⟩
  · rw [show processStream chunks = chunks.foldl processChunk none from rfl,
      foldl_processChunk, foldl_streamStep]
    cases ((chunks.flatMap chunkLines).filterMap resultLine).getLast? <;> rfl
  · intro r hr
    rw [hr]
    rfl
  · intro h0 lastLine hl
    rw [h0]
    simp [asyncCloseUpdates, hl]

end ClaudeMcp

namespace ClaudeMcp

/-- First streamed chunk of the concrete scenario: one result event. -/
def chunkA : String := "\x7b\"type\":\"result\",\"n\":1\x7d\n"

/-- Second streamed chunk: a malformed line, silently discarded. -/
def chunkB : String := "junk\x7b\x7b\n"

/-- Third streamed chunk: two further result events on separate lines. -/
def chunkC : String := "\x7b\"type\":\"result\",\"n\":2\x7d\n\x7b\"type\":\"result\",\"n\":3\x7d\n"

/-- The last streamed result event of the concrete scenario. -/
def lastResultC7 : Json := Json.obj [("type", .str "result"), ("n", .num "3")]

/-- C7 witness: with three result lines and a malformed line streamed before
exit 0, the task completes with the third result, not the first; with no
result line streamed, the close handler parses the last non-empty stdout
line instead. -/
theorem claim_C7_witness :
    processStream [chunkA, chunkB, chunkC] = some lastResultC7 ∧
    asyncCloseUpdates 0 "ignored" "" (processStream [chunkA, chunkB, chunkC]) =
      { status := some .completed, result := some (some lastResultC7),
        process := some none } ∧
    asyncCloseUpdates 0 "out1\ntext out2\n" "" (processStream ["garbage\n"]) =
      { status := some .completed,
        result := some (some (parseResponse "text out2" "")),
        process := some none } := by
  have h := claim_C7_streaming [chunkA, chunkB, chunkC] "ignored" ""
  have h1 : processStream [chunkA, chunkB, chunkC] = some lastResultC7 := by
    rw [h.1]
    rfl
  have h2 := claim_C7_streaming ["garbage\n"] "out1\ntext out2\n" ""
  have h0 : processStream ["garbage\n"] = none := by
    rw [h2.1]
    rfl
  exact ⟨h1, h.2.1 lastResultC7 h1, h2.2.2 h0 "text out2" rfl⟩

end ClaudeMcp
